import Mathlib

/-!
Shallow embedding of the core logic of src/neprem_scraper.py
(listing scraper: numeric normalization, field merge, dedup,
seen-set state diff, notification dispatch), with theorems
checking the specification's claims against it.
-/

namespace Neprem

/-! ## Numeric normalizer: parse_number (src lines 111-130) -/

/-- Python str.strip on whitespace, modelled on a character list. -/
def isSpaceChar (c : Char) : Bool := c.isWhitespace

def pyStrip (s : List Char) : List Char :=
  ((s.dropWhile isSpaceChar).reverse.dropWhile isSpaceChar).reverse

/-- If pat is a prefix of s, returns the rest of s after it. -/
def stripPrefixQ : List Char → List Char → Option (List Char)
  | [], s => some s
  | _ :: _, [] => none
  | p :: ps, c :: cs => if p == c then stripPrefixQ ps cs else none

/-- Python str.replace, non-overlapping, left to right; `fuel` bounds the scan
(always called with the input length, which suffices for a nonempty pattern). -/
def replaceAllAux (pat rep : List Char) : Nat → List Char → List Char
  | 0, s => s
  | Nat.succ fuel, s =>
    match s with
    | [] => []
    | c :: rest =>
      match stripPrefixQ pat (c :: rest) with
      | some remainder => rep ++ replaceAllAux pat rep fuel remainder
      | none => c :: replaceAllAux pat rep fuel rest

def replaceAll (pat rep s : List Char) : List Char :=
  if pat = [] then s else replaceAllAux pat rep s.length s

/-- The cleaning phase of parse_number: replace nbsp by space, drop the
currency and unit markers, strip (source lines 114-121). -/
def cleanText (s : List Char) : List Char :=
  pyStrip (replaceAll ['m', '2'] []
    (replaceAll ['m', '²'] []
      (replaceAll ['E', 'U', 'R'] []
        (replaceAll ['€'] []
          (replaceAll [' '] [' '] s)))))

/-- A character the regex class [\d.,] accepts. -/
def isRunChar (c : Char) : Bool := c.isDigit || c == '.' || c == ','

/-- First match of the regex \d[\d.,]* : the first digit and the maximal
following run of digits, dots and commas (source line 122). -/
def firstRun : List Char → List Char
  | [] => []
  | c :: rest => if c.isDigit then c :: rest.takeWhile isRunChar else firstRun rest

def commaToDot (c : Char) : Char := if c = ',' then '.' else c

/-- The punctuation disambiguation of parse_number (source lines 126-129):
both separators present means the dots are thousands grouping (dropped) and
the comma is the decimal mark; a lone comma is the decimal mark; a lone dot
is kept as is. -/
def transformRun (value : List Char) : List Char :=
  if ',' ∈ value ∧ '.' ∈ value then
    (value.filter (fun c => decide (c ≠ '.'))).map commaToDot
  else if ',' ∈ value then
    value.map commaToDot
  else value

/-- parse_number (source lines 111-130). -/
def parse_number (text : String) : String :=
  if text = "" then ""
  else if firstRun (cleanText text.data) = [] then ""
  else String.mk (transformRun (firstRun (cleanText text.data)))

example : parse_number "1.234,56" = "1234.56" := by decide
example : parse_number "3,5" = "3.5" := by decide
example : parse_number "120 m²" = "120" := by decide
example : parse_number "" = "" := by decide
example : parse_number "1.234.567" = "1.234.567" := by decide
example : parse_number "250.000 €" = "250.000" := by decide

/-- The shape claim C1 asserts of parse_number outputs: a non-negative
decimal with a dot separator, i.e. only digits and at most one dot. -/
def decimalLike (s : String) : Bool :=
  (!s.data.isEmpty) && s.data.all (fun c => c.isDigit || c == '.')
    && decide (s.data.count '.' ≤ 1)

theorem data_mk (l : List Char) : (String.mk l).data = l := rfl

theorem digit_ne_dot {c : Char} (h : c.isDigit = true) : ¬(c = '.') := by
  intro e
  subst e
  exact absurd h (by decide)

theorem digit_ne_comma {c : Char} (h : c.isDigit = true) : ¬(c = ',') := by
  intro e
  subst e
  exact absurd h (by decide)

theorem runChar_cases {c : Char} (h : isRunChar c = true) :
    c.isDigit = true ∨ c = '.' ∨ c = ',' := by
  simp only [isRunChar, Bool.or_eq_true, beq_iff_eq] at h
  tauto

theorem commaToDot_shape {c : Char} (h : c.isDigit = true ∨ c = '.' ∨ c = ',') :
    (commaToDot c).isDigit = true ∨ commaToDot c = '.' := by
  rcases h with h | h | h
  · left
    rw [commaToDot, if_neg (digit_ne_comma h)]
    exact h
  · right
    subst h
    rfl
  · right
    subst h
    rfl

theorem transformRun_both {v : List Char} (h1 : ',' ∈ v) (h2 : '.' ∈ v) :
    transformRun v = (v.filter (fun c => decide (c ≠ '.'))).map commaToDot := by
  rw [transformRun, if_pos ⟨h1, h2⟩]

theorem transformRun_comma {v : List Char} (h1 : ',' ∈ v) (h2 : '.' ∉ v) :
    transformRun v = v.map commaToDot := by
  rw [transformRun, if_neg (fun hc => h2 hc.2), if_pos h1]

theorem transformRun_plain {v : List Char} (h1 : ',' ∉ v) :
    transformRun v = v := by
  rw [transformRun, if_neg (fun hc => h1 hc.1), if_neg h1]

/-- Every output of firstRun is empty or a digit followed by run characters. -/
theorem firstRun_cases (cs : List Char) :
    firstRun cs = [] ∨
    ∃ d t, firstRun cs = d :: t ∧ d.isDigit = true ∧ ∀ c ∈ t, isRunChar c = true := by
  induction cs with
  | nil => exact Or.inl rfl
  | cons c rest ih =>
    by_cases h : c.isDigit = true
    · right
      refine ⟨c, rest.takeWhile isRunChar, by simp [firstRun, h], h, ?_⟩
      intro x hx
      exact List.mem_takeWhile_imp hx
    · simpa [firstRun, h] using ih

/-- Claim C1, counterexample: on the dot-grouped input "1.234.567"
(a price with dot thousands separators and no comma), parse_number keeps
both dots, so the output is neither empty nor a decimal with at most one
decimal point. -/
theorem parse_number_c1_counterexample :
    parse_number "1.234.567" = "1.234.567" ∧
    ¬(parse_number "1.234.567" = "" ∨ decimalLike (parse_number "1.234.567") = true) := by
  decide

/-- Claim C1 (amended): for every input string, parse_number returns either
the empty string or a nonempty string that begins with a digit and contains
only digits and dots (never a comma); it may contain more than one dot. -/
theorem parse_number_shape (s : String) :
    parse_number s = "" ∨
    (∃ d t, (parse_number s).data = d :: t ∧ d.isDigit = true) ∧
      ∀ c ∈ (parse_number s).data, (c.isDigit = true ∨ c = '.') := by
  by_cases hs : s = ""
  · left
    simp [parse_number, hs]
  · rcases firstRun_cases (cleanText s.data) with hF | ⟨d, t, hF, hd, ht⟩
    · left
      simp [parse_number, hs, hF]
    · right
      have hne : firstRun (cleanText s.data) ≠ [] := by
        rw [hF]
        simp
      have hpn : parse_number s = String.mk (transformRun (firstRun (cleanText s.data))) := by
        simp [parse_number, hs, hne]
      have hrun : ∀ c ∈ firstRun (cleanText s.data), isRunChar c = true := by
        intro c hc
        rw [hF] at hc
        rcases List.mem_cons.mp hc with e | hmem
        · subst e
          simp [isRunChar, hd]
        · exact ht c hmem
      rw [hpn, data_mk, hF]
      rw [hF] at hrun
      by_cases h1 : ',' ∈ d :: t
      · by_cases h2 : '.' ∈ d :: t
        · rw [transformRun_both h1 h2]
          constructor
          · refine ⟨d, ((t.filter (fun c => decide (c ≠ '.'))).map commaToDot), ?_, ?_⟩
            · rw [List.filter_cons, if_pos (by simpa using digit_ne_dot hd)]
              rw [List.map_cons, commaToDot, if_neg (digit_ne_comma hd)]
            · exact hd
          · intro c hc
            rcases List.mem_map.mp hc with ⟨c0, hc0, hct⟩
            have hc0v : c0 ∈ d :: t := (List.filter_sublist _).mem hc0
            have hc0d : c0 ≠ '.' := by simpa using (List.mem_filter.mp hc0).2
            rcases runChar_cases (hrun c0 hc0v) with hh | hh | hh
            · rw [← hct]
              exact commaToDot_shape (Or.inl hh)
            · exact absurd hh hc0d
            · rw [← hct]
              exact commaToDot_shape (Or.inr (Or.inr hh))
        · rw [transformRun_comma h1 h2]
          constructor
          · refine ⟨commaToDot d, t.map commaToDot, by rw [List.map_cons], ?_⟩
            rw [commaToDot, if_neg (digit_ne_comma hd)]
            exact hd
          · intro c hc
            rcases List.mem_map.mp hc with ⟨c0, hc0, hct⟩
            rw [← hct]
            exact commaToDot_shape (runChar_cases (hrun c0 hc0))
      · rw [transformRun_plain h1]
        constructor
        · exact ⟨d, t, rfl, hd⟩
        · intro c hc
          rcases runChar_cases (hrun c hc) with hh | hh | hh
          · exact Or.inl hh
          · exact Or.inr hh
          · exact absurd (hh ▸ hc) h1

/-- Claim C2: parse_number implements the locale-disambiguation rule on the
first digit run of the cleaned text — with both comma and dot present the
dots are removed and the comma becomes a dot, with only a comma present the
comma becomes a dot, with no comma the run is returned unchanged, and with
no digit run the result is empty — and the four concrete examples hold. -/
theorem parse_number_rule :
    (∀ s : String,
      (firstRun (cleanText s.data) = [] → parse_number s = "") ∧
      (',' ∈ firstRun (cleanText s.data) → '.' ∈ firstRun (cleanText s.data) →
        (parse_number s).data =
          ((firstRun (cleanText s.data)).filter (fun c => decide (c ≠ '.'))).map commaToDot) ∧
      (',' ∈ firstRun (cleanText s.data) → '.' ∉ firstRun (cleanText s.data) →
        (parse_number s).data = (firstRun (cleanText s.data)).map commaToDot) ∧
      (',' ∉ firstRun (cleanText s.data) →
        (parse_number s).data = firstRun (cleanText s.data))) ∧
    parse_number "1.234,56" = "1234.56" ∧
    parse_number "3,5" = "3.5" ∧
    parse_number "120 m²" = "120" ∧
    parse_number "" = "" := by
  refine ⟨fun s => ?_, by decide, by decide, by decide, rfl⟩
  by_cases hs : s = ""
  · subst hs
    exact ⟨fun _ => rfl, fun h => absurd h (by decide),
      fun h _ => absurd h (by decide), fun _ => rfl⟩
  · by_cases hr : firstRun (cleanText s.data) = []
    · refine ⟨fun _ => by simp [parse_number, hs, hr], ?_, ?_, ?_⟩
      · intro h
        exact absurd (hr ▸ h) (List.not_mem_nil ',')
      · intro h _
        exact absurd (hr ▸ h) (List.not_mem_nil ',')
      · intro _
        simp [parse_number, hs, hr]
    · have hpn : parse_number s = String.mk (transformRun (firstRun (cleanText s.data))) := by
        simp [parse_number, hs, hr]
      refine ⟨fun h => absurd h hr, ?_, ?_, ?_⟩
      · intro h1 h2
        rw [hpn, data_mk, transformRun_both h1 h2]
      · intro h1 h2
        rw [hpn, data_mk, transformRun_comma h1 h2]
      · intro h1
        rw [hpn, data_mk, transformRun_plain h1]

/-- Witness for parse_number_rule: each conditional branch of the rule,
discharged at a concrete input. -/
theorem parse_number_rule_witness :
    (parse_number "1.234,56").data =
      ((firstRun (cleanText "1.234,56".data)).filter (fun c => decide (c ≠ '.'))).map commaToDot ∧
    (parse_number "3,5").data = (firstRun (cleanText "3,5".data)).map commaToDot ∧
    (parse_number "007").data = firstRun (cleanText "007".data) ∧
    parse_number "no digits at all" = "" := by
  refine ⟨?_, ?_, ?_, ?_⟩
  · exact (parse_number_rule.1 "1.234,56").2.1 (by decide) (by decide)
  · exact (parse_number_rule.1 "3,5").2.2.1 (by decide) (by decide)
  · exact (parse_number_rule.1 "007").2.2.2 (by decide)
  · exact (parse_number_rule.1 "no digits at all").1 (by decide)

/-! ## Data model: the Listing record (src lines 19-40) -/

structure Listing where
  url : String
  title : String
  price_eur : String
  location : String
  currency : String
  description : String
  area_m2 : String
  year : String
  renovation_year : String
  is_new_building : String
  floor : String
  room_type : String
  listing_type : String
  labels : String
  agency_name : String
  agency_url : String
  agency_phone : String
  images : String
  bedrooms_count : String
  bathrooms_count : String
deriving DecidableEq

/-! ## Field merge (src lines 418-470) -/

/-- The field map produced by extract_detail_fields (src lines 251-263),
as consumed by the merge in scrape_listings. -/
structure DetailFields where
  bedrooms_count : String
  bathrooms_count : String
  area_m2 : String
  year : String
  renovation_year : String
  is_new_building : String
  floor : String
  location : String
  images : String
  listing_type : String
  room_type : String
deriving DecidableEq

/-- The summary-card field values available at the merge point in
scrape_listings (src lines 326-416). -/
structure SummaryData where
  url : String
  title : String
  price_eur : String
  location : String
  currency : String
  description : String
  area_m2 : String
  year : String
  renovation_year : String
  is_new_building : String
  floor : String
  room_type : String
  listing_type : String
  labels : String
  agency_name : String
  agency_url : String
  agency_phone : String
  images : String
deriving DecidableEq

/-- Python string `a or b`: b when a is the empty (falsy) string, else a. -/
def orStr (a b : String) : String := if a = "" then b else a

/-- The detail field values when the detail fetch raised: every field keeps
its initial empty value (src lines 418-428 and 443-445). -/
def emptyDetailFields : DetailFields :=
  ⟨"", "", "", "", "", "", "", "", "", "", ""⟩

/-- Construction of the Listing at src lines 447-470: each overlapping field
is `detail or summary`; bedroom and bathroom counts come only from the
detail fetch and stay empty when it failed. -/
def buildListing (s : SummaryData) (d : Option DetailFields) : Listing :=
  { url := s.url
  , title := s.title
  , price_eur := s.price_eur
  , location := orStr (d.getD emptyDetailFields).location s.location
  , currency := s.currency
  , description := s.description
  , area_m2 := orStr (d.getD emptyDetailFields).area_m2 s.area_m2
  , year := orStr (d.getD emptyDetailFields).year s.year
  , renovation_year := orStr (d.getD emptyDetailFields).renovation_year s.renovation_year
  , is_new_building := orStr (d.getD emptyDetailFields).is_new_building s.is_new_building
  , floor := orStr (d.getD emptyDetailFields).floor s.floor
  , room_type := orStr (d.getD emptyDetailFields).room_type s.room_type
  , listing_type := orStr (d.getD emptyDetailFields).listing_type s.listing_type
  , labels := s.labels
  , agency_name := s.agency_name
  , agency_url := s.agency_url
  , agency_phone := s.agency_phone
  , images := orStr (d.getD emptyDetailFields).images s.images
  , bedrooms_count := (d.getD emptyDetailFields).bedrooms_count
  , bathrooms_count := (d.getD emptyDetailFields).bathrooms_count }

theorem orStr_of_ne {a : String} (b : String) (h : a ≠ "") : orStr a b = a := by
  rw [orStr, if_neg h]

theorem orStr_of_empty (b : String) : orStr "" b = b := rfl

/-- Claim C3: for each overlapping field (location, area_m2, year,
renovation_year, is_new_building, floor, room_type, listing_type, images),
the constructed record holds the detail value when the detail extractor
produced a non-empty one, and the summary value when the detail value is
empty or the detail fetch failed. -/
theorem merge_precedence (s : SummaryData) (d : DetailFields) :
    ((d.location ≠ "" → (buildListing s (some d)).location = d.location) ∧
     (d.location = "" → (buildListing s (some d)).location = s.location) ∧
     (buildListing s none).location = s.location) ∧
    ((d.area_m2 ≠ "" → (buildListing s (some d)).area_m2 = d.area_m2) ∧
     (d.area_m2 = "" → (buildListing s (some d)).area_m2 = s.area_m2) ∧
     (buildListing s none).area_m2 = s.area_m2) ∧
    ((d.year ≠ "" → (buildListing s (some d)).year = d.year) ∧
     (d.year = "" → (buildListing s (some d)).year = s.year) ∧
     (buildListing s none).year = s.year) ∧
    ((d.renovation_year ≠ "" → (buildListing s (some d)).renovation_year = d.renovation_year) ∧
     (d.renovation_year = "" → (buildListing s (some d)).renovation_year = s.renovation_year) ∧
     (buildListing s none).renovation_year = s.renovation_year) ∧
    ((d.is_new_building ≠ "" → (buildListing s (some d)).is_new_building = d.is_new_building) ∧
     (d.is_new_building = "" → (buildListing s (some d)).is_new_building = s.is_new_building) ∧
     (buildListing s none).is_new_building = s.is_new_building) ∧
    ((d.floor ≠ "" → (buildListing s (some d)).floor = d.floor) ∧
     (d.floor = "" → (buildListing s (some d)).floor = s.floor) ∧
     (buildListing s none).floor = s.floor) ∧
    ((d.room_type ≠ "" → (buildListing s (some d)).room_type = d.room_type) ∧
     (d.room_type = "" → (buildListing s (some d)).room_type = s.room_type) ∧
     (buildListing s none).room_type = s.room_type) ∧
    ((d.listing_type ≠ "" → (buildListing s (some d)).listing_type = d.listing_type) ∧
     (d.listing_type = "" → (buildListing s (some d)).listing_type = s.listing_type) ∧
     (buildListing s none).listing_type = s.listing_type) ∧
    ((d.images ≠ "" → (buildListing s (some d)).images = d.images) ∧
     (d.images = "" → (buildListing s (some d)).images = s.images) ∧
     (buildListing s none).images = s.images) := by
  refine ⟨⟨?_, ?_, ?_⟩, ⟨?_, ?_, ?_⟩, ⟨?_, ?_, ?_⟩, ⟨?_, ?_, ?_⟩, ⟨?_, ?_, ?_⟩,
    ⟨?_, ?_, ?_⟩, ⟨?_, ?_, ?_⟩, ⟨?_, ?_, ?_⟩, ⟨?_, ?_, ?_⟩⟩ <;>
    first
      | (intro h
         simp [buildListing, orStr, h])
      | simp [buildListing, emptyDetailFields, orStr]

/-- Witness for merge_precedence at a concrete summary card and detail map:
the detail location wins over the summary one, the empty detail area falls
back to the summary area, and a failed detail fetch keeps the summary year. -/
theorem merge_precedence_witness :
    (buildListing
      ⟨"https://x/a", "T", "100", "SumLoc", "", "", "80", "1999", "", "", "2", "", "", "", "", "", "", ""⟩
      (some ⟨"3", "1", "", "2001", "", "", "", "DetLoc", "", "", ""⟩)).location = "DetLoc" ∧
    (buildListing
      ⟨"https://x/a", "T", "100", "SumLoc", "", "", "80", "1999", "", "", "2", "", "", "", "", "", "", ""⟩
      (some ⟨"3", "1", "", "2001", "", "", "", "DetLoc", "", "", ""⟩)).area_m2 = "80" ∧
    (buildListing
      ⟨"https://x/a", "T", "100", "SumLoc", "", "", "80", "1999", "", "", "2", "", "", "", "", "", "", ""⟩
      none).year = "1999" := by
  refine ⟨?_, ?_, ?_⟩
  · exact ((merge_precedence
      ⟨"https://x/a", "T", "100", "SumLoc", "", "", "80", "1999", "", "", "2", "", "", "", "", "", "", ""⟩
      ⟨"3", "1", "", "2001", "", "", "", "DetLoc", "", "", ""⟩).1.1 (by decide)).trans rfl
  · exact ((merge_precedence
      ⟨"https://x/a", "T", "100", "SumLoc", "", "", "80", "1999", "", "", "2", "", "", "", "", "", "", ""⟩
      ⟨"3", "1", "", "2001", "", "", "", "DetLoc", "", "", ""⟩).2.1.2.1 rfl).trans rfl
  · exact ((merge_precedence
      ⟨"https://x/a", "T", "100", "SumLoc", "", "", "80", "1999", "", "", "2", "", "", "", "", "", "", ""⟩
      ⟨"3", "1", "", "2001", "", "", "", "DetLoc", "", "", ""⟩).2.2.1.2.2).trans rfl

/-! ## Final dedup pass (src lines 472-481) -/

/-- The seen-urls accumulator loop of the dedup pass: skip a listing whose
url was already seen, otherwise keep it and record its url. -/
def dedupAux (seen : List String) : List Listing → List Listing
  | [] => []
  | x :: xs =>
    if x.url ∈ seen then dedupAux seen xs
    else x :: dedupAux (x.url :: seen) xs

def dedupListings (listings : List Listing) : List Listing :=
  dedupAux [] listings

/-- The dedup pass as the spec words it: keep the first occurrence of each
url and drop every later occurrence, preserving the order of the rest. -/
def specFirstOccurrences : List Listing → List Listing
  | [] => []
  | x :: xs => x :: specFirstOccurrences (xs.filter (fun y => decide (y.url ≠ x.url)))
termination_by l => l.length
decreasing_by
  simp only [List.length_cons]
  exact Nat.lt_succ_of_le (List.length_filter_le _ _)

theorem specFirstOccurrences_nil : specFirstOccurrences [] = [] := by
  rw [specFirstOccurrences]

theorem specFirstOccurrences_cons (x : Listing) (xs : List Listing) :
    specFirstOccurrences (x :: xs) =
      x :: specFirstOccurrences (xs.filter (fun y => decide (y.url ≠ x.url))) := by
  rw [specFirstOccurrences]

theorem specFirstOccurrences_sublist : ∀ l : List Listing,
    (specFirstOccurrences l).Sublist l
  | [] => by
    rw [specFirstOccurrences_nil]
  | x :: xs => by
    rw [specFirstOccurrences_cons]
    exact List.Sublist.cons₂ x
      ((specFirstOccurrences_sublist _).trans (List.filter_sublist xs))
termination_by l => l.length
decreasing_by
  simp only [List.length_cons]
  exact Nat.lt_succ_of_le (List.length_filter_le _ _)

theorem dedupAux_eq_spec (l : List Listing) : ∀ seen : List String,
    dedupAux seen l =
      specFirstOccurrences (l.filter (fun y => decide (y.url ∉ seen))) := by
  induction l with
  | nil =>
    intro seen
    rw [dedupAux, List.filter_nil, specFirstOccurrences_nil]
  | cons x xs ih =>
    intro seen
    by_cases hx : x.url ∈ seen
    · rw [dedupAux, if_pos hx, List.filter_cons, if_neg (by simpa using hx)]
      exact ih seen
    · rw [dedupAux, if_neg hx, List.filter_cons, if_pos (by simpa using hx)]
      rw [specFirstOccurrences_cons, ih (x.url :: seen), List.filter_filter]
      have hpred : ∀ y : Listing,
          (decide (y.url ∉ x.url :: seen)) =
            ((decide (y.url ≠ x.url)) && (decide (y.url ∉ seen))) := by
        intro y
        by_cases h1 : y.url = x.url
        · simp [h1]
        · by_cases h2 : y.url ∈ seen
          · simp [h1, h2]
          · simp [h1, h2]
      rw [List.filter_congr (fun y _ => hpred y)]

/-- Claim C4: the final dedup pass keeps exactly the first occurrence of
each url, drops all later occurrences, and preserves the relative order of
the kept records — it equals the first-occurrence function and is a sublist
(hence order preserving) of its input. -/
theorem dedup_keeps_first_occurrences (l : List Listing) :
    dedupListings l = specFirstOccurrences l ∧ (dedupListings l).Sublist l := by
  have h : dedupListings l = specFirstOccurrences l := by
    rw [dedupListings, dedupAux_eq_spec l []]
    have : ∀ y : Listing, (decide (y.url ∉ ([] : List String))) = true := by
      intro y
      simp
    rw [List.filter_congr (fun y _ => this y), List.filter_true]
  exact ⟨h, h ▸ specFirstOccurrences_sublist l⟩

/-! ## Seen-set state: diff, save, run_once (src lines 484-500 and 550-561) -/

/-- The new-records diff of run_once (src line 553): the listings whose url
is not in the seen set, in scrape order. -/
def diffNew (listings : List Listing) (seen : List String) : List Listing :=
  listings.filter (fun l => decide (l.url ∉ seen))

/-- save_seen (src lines 497-500): the persisted document is the sorted list
of the distinct urls. -/
def save_seen (urls : List String) : List String :=
  List.insertionSort (fun a b => a ≤ b) urls.dedup

/-- The seen-set update of run_once (src lines 557-558): the new urls are
added to the seen set and the result is persisted through save_seen. -/
def commitSeen (seen : List String) (new : List Listing) : List String :=
  save_seen (seen ++ new.map (fun l => l.url))

theorem mem_save_seen (u : String) (urls : List String) :
    u ∈ save_seen urls ↔ u ∈ urls := by
  rw [save_seen, (List.perm_insertionSort _ _).mem_iff, List.mem_dedup]

theorem mem_commitSeen (u : String) (seen : List String) (new : List Listing) :
    u ∈ commitSeen seen new ↔ u ∈ seen ∨ u ∈ new.map (fun l => l.url) := by
  rw [commitSeen, mem_save_seen, List.mem_append]

/-- Claim C5: the state diff contains exactly the records whose url is not
in the seen set, in the original order (it is an order-preserving sublist);
and committing the diff and diffing the same records again gives the empty
list. -/
theorem diff_commit_idempotent (l : List Listing) (seen : List String) :
    (∀ r, r ∈ diffNew l seen ↔ r ∈ l ∧ r.url ∉ seen) ∧
    (diffNew l seen).Sublist l ∧
    diffNew l (commitSeen seen (diffNew l seen)) = [] := by
  refine ⟨?_, List.filter_sublist l, ?_⟩
  · intro r
    rw [diffNew, List.mem_filter]
    simp
  · rw [diffNew, List.filter_eq_nil_iff]
    intro a ha
    simp only [decide_eq_true_eq, Decidable.not_not]
    rw [mem_commitSeen]
    by_cases h : a.url ∈ seen
    · exact Or.inl h
    · right
      exact List.mem_map.mpr ⟨a, List.mem_filter.mpr ⟨ha, by simpa using h⟩, rfl⟩

/-! ## run_once control flow (src lines 550-561): the persisted seen set is
advanced only after a successful notification. The scrape result, the
notification outcome and the persisted state are the inputs of the model;
a raised notification leaves the persisted file untouched. -/

inductive RunOutcome where
  | raised (seenFile : List String)
  | exited (code : Nat) (seenFile : List String)
deriving DecidableEq

def RunOutcome.seenFileAfter : RunOutcome → List String
  | .raised s => s
  | .exited _ s => s

/-- run_once (src lines 550-561): diff against the seen set; with no new
listings exit 1 without saving; otherwise notify, and only when the
notification returns (notifyOk) update and save the seen set and exit 0 —
a raise in notify propagates before any save. -/
def run_once (listings : List Listing) (notifyOk : Bool) (seenFile : List String) :
    RunOutcome :=
  if diffNew listings seenFile = [] then .exited 1 seenFile
  else if notifyOk then .exited 0 (commitSeen seenFile (diffNew listings seenFile))
  else .raised seenFile

/-- Claim C7: a failed notification never advances the persisted seen set —
after run_once with a raising notify the persisted file is unchanged (and
the run raises exactly when there was something to notify); the file is
rewritten only on the exit-0 path, which requires notify to have succeeded. -/
theorem notify_failure_keeps_seen (l : List Listing) (ok : Bool) (seen : List String) :
    (ok = false → (run_once l ok seen).seenFileAfter = seen) ∧
    (ok = false → diffNew l seen ≠ [] → run_once l ok seen = .raised seen) ∧
    (∀ s2, run_once l ok seen = .exited 0 s2 →
      ok = true ∧ diffNew l seen ≠ [] ∧ s2 = commitSeen seen (diffNew l seen)) := by
  refine ⟨?_, ?_, ?_⟩
  · intro hok
    subst hok
    by_cases h : diffNew l seen = []
    · rw [run_once, if_pos h]
      rfl
    · rw [run_once, if_neg h, if_neg (by simp)]
      rfl
  · intro hok h
    subst hok
    rw [run_once, if_neg h, if_neg (by simp)]
  · intro s2 h
    by_cases hd : diffNew l seen = []
    · rw [run_once, if_pos hd] at h
      simp at h
    · cases ok with
      | true =>
        rw [run_once, if_neg hd, if_pos rfl] at h
        cases h
        exact ⟨rfl, hd, rfl⟩
      | false =>
        rw [run_once, if_neg hd, if_neg (by simp)] at h
        exact absurd h (by simp)

def sampleListing : Listing :=
  ⟨"https://x/a", "T", "100", "L", "", "", "", "", "", "", "", "", "", "", "", "", "", "", "", ""⟩

/-- Witness for notify_failure_keeps_seen: one unseen listing and a raising
notify leave the persisted seen set empty. -/
theorem notify_failure_keeps_seen_witness :
    run_once [sampleListing] false [] = .raised [] ∧
    (run_once [sampleListing] false []).seenFileAfter = [] := by
  constructor
  · exact (notify_failure_keeps_seen [sampleListing] false []).2.1 rfl (by decide)
  · exact (notify_failure_keeps_seen [sampleListing] false []).1 rfl

/-! ## Notification formats (src lines 503-539) -/

/-- The line parts built by send_stdout for one record (src lines 504-510):
title, then price only if non-empty, then location only if non-empty, then
url. -/
def stdoutParts (l : Listing) : List String :=
  [l.title]
    ++ (if l.price_eur = "" then [] else [l.price_eur])
    ++ (if l.location = "" then [] else [l.location])
    ++ [l.url]

/-- send_stdout prints one " | "-joined line per record (src line 511). -/
def send_stdout (listings : List Listing) : List String :=
  listings.map (fun l => String.intercalate " | " (stdoutParts l))

/-- The fixed four segments of a send_smtp body line (src line 527). -/
def smtpParts (l : Listing) : List String :=
  [l.title, l.price_eur, l.location, l.url]

def smtpBodyLine (l : Listing) : String :=
  String.intercalate " | " (smtpParts l)

/-- Claim C10: a stdout line always starts with the title and ends with the
url; the price segment appears exactly when the price is non-empty and the
location segment exactly when the location is non-empty, so the line shape
is one of four forms — while the smtp body line always has the fixed four
segments. -/
theorem stdout_line_shape (l : Listing) :
    (l.price_eur ≠ "" → l.location ≠ "" →
      stdoutParts l = [l.title, l.price_eur, l.location, l.url]) ∧
    (l.price_eur ≠ "" → l.location = "" →
      stdoutParts l = [l.title, l.price_eur, l.url]) ∧
    (l.price_eur = "" → l.location ≠ "" →
      stdoutParts l = [l.title, l.location, l.url]) ∧
    (l.price_eur = "" → l.location = "" →
      stdoutParts l = [l.title, l.url]) ∧
    (stdoutParts l).head? = some l.title ∧
    (stdoutParts l).getLast? = some l.url ∧
    (stdoutParts l).length =
      2 + (if l.price_eur = "" then 0 else 1) + (if l.location = "" then 0 else 1) ∧
    (smtpParts l).length = 4 ∧
    send_stdout [l] = [String.intercalate " | " (stdoutParts l)] := by
  by_cases hp : l.price_eur = "" <;> by_cases hl : l.location = "" <;>
    refine ⟨?_, ?_, ?_, ?_, ?_, ?_, ?_, ?_, ?_⟩ <;>
      simp [stdoutParts, smtpParts, send_stdout, hp, hl]

/-- Witness for stdout_line_shape: a record with a price and no location
prints the three-segment line. -/
theorem stdout_line_shape_witness :
    stdoutParts ⟨"https://x/a", "T", "100", "", "", "", "", "", "", "", "", "", "", "", "", "", "", "", "", ""⟩ =
      ["T", "100", "https://x/a"] := by
  have h := (stdout_line_shape
    ⟨"https://x/a", "T", "100", "", "", "", "", "", "", "", "", "", "", "", "", "", "", "", "", ""⟩).2.1
    (by decide) rfl
  exact h

/-! ## load_seen (src lines 484-494) -/

/-- A parsed JSON value, as json.load can return it. -/
inductive JsonV where
  | jnull
  | jbool (b : Bool)
  | jnum (n : Int)
  | jstr (s : String)
  | jarr (xs : List JsonV)
  | jobj (n : Nat)

/-- Whether a Python value of this JSON shape is hashable: arrays (lists)
and objects (dicts) are not, every scalar is. -/
def jsonHashable : JsonV → Bool
  | .jarr _ => false
  | .jobj _ => false
  | _ => true

/-- The outcome of opening and json-parsing the state file, the input of
load_seen: file absent; an OSError while opening or reading (caught below);
file content that is not valid UTF-8, where reading inside json.load raises
UnicodeDecodeError — a ValueError that is neither an OSError nor a
JSONDecodeError; a json.JSONDecodeError (malformed or empty document,
caught below); or a parsed value. -/
inductive LoadInput where
  | missing
  | readError
  | undecodable
  | decodeError
  | parsed (j : JsonV)

/-- load_seen (src lines 484-494): a missing file and the two caught
exception classes (OSError, JSONDecodeError) yield the empty set; a
non-UTF-8 file raises an uncaught UnicodeDecodeError; a parsed list yields
the set of its elements, but building that set raises an uncaught TypeError
when any element is unhashable; any other parsed value yields the empty
set. -/
def load_seen : LoadInput → Except String (List JsonV)
  | .missing => .ok []
  | .readError => .ok []
  | .undecodable => .error "UnicodeDecodeError"
  | .decodeError => .ok []
  | .parsed j =>
    match j with
    | .jarr xs => if xs.all jsonHashable then .ok xs else .error "TypeError"
    | _ => .ok []

/-- Claim C6, counterexample: a state file holding the JSON document [[]]
(a list whose element is a list) makes load_seen raise an uncaught
TypeError instead of returning a set, and a state file whose bytes are not
valid UTF-8 makes it raise an uncaught UnicodeDecodeError. -/
theorem load_seen_c6_counterexample :
    load_seen (.parsed (.jarr [.jarr []])) = .error "TypeError" ∧
    (¬∃ s, load_seen (.parsed (.jarr [.jarr []])) = .ok s) ∧
    load_seen .undecodable = .error "UnicodeDecodeError" ∧
    (¬∃ s, load_seen .undecodable = .ok s) := by
  refine ⟨rfl, ?_, rfl, ?_⟩
  · intro ⟨s, hs⟩
    exact absurd hs (by simp [load_seen, jsonHashable])
  · intro ⟨s, hs⟩
    exact absurd hs (by simp [load_seen])

/-- Claim C6 (amended): load_seen returns the empty set when the file is
missing, unreadable (OSError) or malformed JSON, and when the parsed JSON
is not a list; when the JSON is a list of hashable values it returns the
set of those elements, whatever they are; but it raises on a file whose
content is not valid UTF-8 (UnicodeDecodeError) and on a list containing an
unhashable element, a nested array or object (TypeError). -/
theorem load_seen_total (inp : LoadInput) :
    (inp = .missing ∨ inp = .readError ∨ inp = .decodeError → load_seen inp = .ok []) ∧
    (inp = .undecodable → load_seen inp = .error "UnicodeDecodeError") ∧
    (∀ j, inp = .parsed j → (∀ xs, j ≠ .jarr xs) → load_seen inp = .ok []) ∧
    (∀ xs, inp = .parsed (.jarr xs) → xs.all jsonHashable = true → load_seen inp = .ok xs) ∧
    (∀ xs, inp = .parsed (.jarr xs) → xs.all jsonHashable = false →
      load_seen inp = .error "TypeError") := by
  refine ⟨?_, ?_, ?_, ?_, ?_⟩
  · intro h
    rcases h with h | h | h <;> subst h <;> rfl
  · intro h
    subst h
    rfl
  · intro j hj hnot
    subst hj
    cases j with
    | jarr xs => exact absurd rfl (hnot xs)
    | jnull => rfl
    | jbool b => rfl
    | jnum n => rfl
    | jstr s => rfl
    | jobj n => rfl
  · intro xs hx hall
    subst hx
    rw [load_seen]
    simp [hall]
  · intro xs hx hall
    subst hx
    rw [load_seen]
    simp [hall]

/-- Witness for load_seen_total: a missing file gives the empty set, a
non-UTF-8 file raises, a non-list document gives the empty set, a list of
strings gives its elements, and an unhashable element raises. -/
theorem load_seen_total_witness :
    load_seen .missing = .ok [] ∧
    load_seen .undecodable = .error "UnicodeDecodeError" ∧
    load_seen (.parsed (.jstr "x")) = .ok [] ∧
    load_seen (.parsed (.jarr [.jstr "https://x/a"])) = .ok [.jstr "https://x/a"] ∧
    load_seen (.parsed (.jarr [.jobj 0])) = .error "TypeError" := by
  refine ⟨?_, ?_, ?_, ?_, ?_⟩
  · exact (load_seen_total .missing).1 (Or.inl rfl)
  · exact (load_seen_total .undecodable).2.1 rfl
  · exact (load_seen_total (.parsed (.jstr "x"))).2.2.1 (.jstr "x") rfl (by intro xs; simp)
  · exact (load_seen_total (.parsed (.jarr [.jstr "https://x/a"]))).2.2.2.1 _ rfl (by decide)
  · exact (load_seen_total (.parsed (.jarr [.jobj 0]))).2.2.2.2 _ rfl (by decide)

/-! ## normalize_floor (src lines 271-277) -/

/-- A regex word character over the inputs of interest: [A-Za-z0-9_]. -/
def isWordChar (c : Char) : Bool := c.isAlphanum || c = '_'

def boundaryOkBefore : Option Char → Bool
  | none => true
  | some p => !isWordChar p

def boundaryOkAfter : List Char → Bool
  | [] => true
  | c :: _ => !isWordChar c

/-- Whether the word-bounded, case-insensitive pattern m2 matches at the
start of s, with prev the character just before s. -/
def m2At (prev : Option Char) : List Char → Bool
  | c :: '2' :: rest => (c = 'm' || c = 'M') && boundaryOkBefore prev && boundaryOkAfter rest
  | _ => false

/-- re.search of the pattern for a word-bounded m2, case-insensitively:
does it match anywhere in the text. -/
def hasWordM2 : Option Char → List Char → Bool
  | _, [] => false
  | prev, c :: rest => m2At prev (c :: rest) || hasWordM2 (some c) rest

/-- normalize_floor (src lines 271-277): empty stays empty; the stripped
value is discarded when the word-bounded m2 pattern matches, else kept. -/
def normalize_floor (value : String) : String :=
  if value = "" then ""
  else if hasWordM2 none (pyStrip value.data) then ""
  else String.mk (pyStrip value.data)

/-- Claim C9, counterexample: a floor value containing the superscript unit
m² is NOT discarded (the regex looks for the ASCII word m2 only), while the
ASCII variant m2 is discarded. -/
theorem normalize_floor_c9_counterexample :
    normalize_floor "55 m²" = "55 m²" ∧
    normalize_floor "55 m²" ≠ "" ∧
    normalize_floor "55 m2" = "" := by
  decide

/-- Claim C9 (amended): a floor value in which the ASCII unit m2 occurs
case-insensitively as a whole word (after stripping) is discarded; every
other floor value — including ones with the superscript form m² or with m2
embedded inside a word — is kept as the stripped text. -/
theorem normalize_floor_rule (v : String) :
    (hasWordM2 none (pyStrip v.data) = true → normalize_floor v = "") ∧
    (hasWordM2 none (pyStrip v.data) = false →
      normalize_floor v = String.mk (pyStrip v.data)) := by
  by_cases hv : v = ""
  · subst hv
    exact ⟨fun _ => rfl, fun _ => rfl⟩
  · constructor
    · intro h
      rw [normalize_floor, if_neg hv, if_pos h]
    · intro h
      rw [normalize_floor, if_neg hv, if_neg (by simp [h])]

/-- Witness for normalize_floor_rule: a floor text with a word-bounded m2
is discarded and a plain floor text is kept stripped. -/
theorem normalize_floor_rule_witness :
    normalize_floor "12 m2" = "" ∧ normalize_floor " 3. nadstropje " = "3. nadstropje" := by
  constructor
  · exact (normalize_floor_rule "12 m2").1 (by decide)
  · exact (normalize_floor_rule " 3. nadstropje ").2 (by decide)

/-! ## Page walk of scrape_listings (src lines 280-287 and 298-321) -/

/-- A summary page as the page loop sees it: whether its title matches the
challenge signature, the pagination element's data-pages attribute
(none: element or attribute absent; some none: attribute not an int;
some (some n): attribute parses to n), and the cards on the page. -/
structure PageData where
  challengeTitle : Bool
  dataPages : Option (Option Int)
  cards : List String

/-- get_total_pages (src lines 280-287): the parsed data-pages attribute of
the pagination element, 1 when it is absent or fails to parse. -/
def get_total_pages (p : PageData) : Int :=
  match p.dataPages with
  | some (some n) => n
  | some none => 1
  | none => 1

/-- Python range(1, total + 1) over Int. -/
def pageRange (total : Int) : List Int :=
  (List.range total.toNat).map (fun i => (i : Int) + 1)

/-- What the page loop produced: the extracted cards stamped with the page
they came from, in extraction order, and the page numbers passed to
fetch_html, in call order. -/
structure PageWalk where
  cards : List (Int × String)
  fetchCalls : List Int
deriving DecidableEq

/-- The page walk of scrape_listings (src lines 298-321) over an abstract
site mapping page numbers to summary pages: fetch page 1; fail the run when
its title matches the challenge signature; take the page count from
get_total_pages only when all_pages is set, else 1; then walk pages 1..total
collecting cards, reusing the already fetched page 1 and fetching each other
page. -/
def scrape_pages (site : Int → PageData) (all_pages : Bool) : Except String PageWalk :=
  if (site 1).challengeTitle then
    .error "Cloudflare check detected. Set USE_PLAYWRIGHT=1 in .env."
  else
    .ok
      { cards :=
          (pageRange (if all_pages then get_total_pages (site 1) else 1)).flatMap
            (fun p => (site p).cards.map (fun c => (p, c)))
      , fetchCalls :=
          1 :: (pageRange (if all_pages then get_total_pages (site 1) else 1)).filter
            (fun p => decide (p ≠ 1)) }

/-- A site whose first page advertises 3 result pages and where every page
carries one card. -/
def siteThreePages : Int → PageData :=
  fun _ => { challengeTitle := false, dataPages := some (some 3), cards := ["card"] }

/-- Claim C8, counterexample: in the runs of the pipeline (run_once calls
scrape_listings with its default all_pages = False), the pagination marker
is ignored: on a site whose first page advertises 3 pages only page 1 is
walked, and page 2's card is never extracted. -/
theorem scrape_pages_c8_counterexample :
    get_total_pages (siteThreePages 1) = 3 ∧
    scrape_pages siteThreePages false = .ok ⟨[(1, "card")], [1]⟩ ∧
    ∀ res, scrape_pages siteThreePages false = .ok res → (2, "card") ∉ res.cards := by
  refine ⟨rfl, rfl, ?_⟩
  intro res hres
  have hval : scrape_pages siteThreePages false = .ok (⟨[(1, "card")], [1]⟩ : PageWalk) := rfl
  have h3 := hres.symm.trans hval
  injection h3 with h4
  subst h4
  decide

/-- Claim C8 (amended): when the first page passes the challenge check, the
walk uses the page count from the first page's pagination marker only when
the all-pages option is set, and 1 otherwise; every card of every page
numbered 1 through that count is extracted with its page stamp; page 1 is
fetched exactly once (its markup is reused); and only pages in that range
beyond page 1 are fetched again. -/
theorem scrape_pages_walk (site : Int → PageData) (ap : Bool)
    (h : (site 1).challengeTitle = false) :
    ∃ res, scrape_pages site ap = .ok res ∧
      (∀ p c, p ∈ pageRange (if ap then get_total_pages (site 1) else 1) →
        c ∈ (site p).cards → (p, c) ∈ res.cards) ∧
      res.fetchCalls.count 1 = 1 ∧
      (∀ p, p ∈ res.fetchCalls →
        p = 1 ∨ p ∈ pageRange (if ap then get_total_pages (site 1) else 1)) := by
  have hno : ¬((site 1).challengeTitle = true) := by simp [h]
  refine ⟨_, by rw [scrape_pages, if_neg hno], ?_, ?_, ?_⟩
  · intro p c hp hc
    exact List.mem_flatMap.mpr ⟨p, hp, List.mem_map.mpr ⟨c, hc, rfl⟩⟩
  · rw [List.count_cons_self]
    have : List.count 1 (List.filter (fun p => decide (p ≠ 1))
        (pageRange (if ap then get_total_pages (site 1) else 1))) = 0 := by
      rw [List.count_eq_zero]
      intro hmem
      have h2 := (List.mem_filter.mp hmem).2
      simp at h2
    rw [this]
  · intro p hp
    rcases List.mem_cons.mp hp with e | hmem
    · exact Or.inl e
    · exact Or.inr ((List.filter_sublist _).mem hmem)

/-- Witness for scrape_pages_walk: on the three-page site with the all-pages
option set, the walk collects the cards of pages 1, 2 and 3 and fetches
page 1 exactly once. -/
theorem scrape_pages_walk_witness :
    (siteThreePages 1).challengeTitle = false ∧
    ∃ res, scrape_pages siteThreePages true = .ok res ∧
      (2, "card") ∈ res.cards ∧ res.fetchCalls.count 1 = 1 := by
  refine ⟨rfl, ?_⟩
  obtain ⟨res, hres, hcards, hcount, _⟩ := scrape_pages_walk siteThreePages true rfl
  exact ⟨res, hres, hcards 2 "card" (by decide) (by decide), hcount⟩

end Neprem
